import Mathlib

/-!
Verification development for the `registry_manager` update pipeline of the
bazel_registry repository.

The Python sources are shallowly embedded: pure functions become Lean
functions over `List Char` / `String` / `Nat`; code that can raise becomes
`Except PyErr`-valued; the GitHub network collaborator is a record of total
functions; the hash and diff collaborators are function parameters.

Layout:
* character/string helpers and a generic lexicographic comparator;
* the semantic-version model and parser (mirroring the `semver` library
  used by `version.py`: the anchored semver.org regex and `_cmp`);
* `Version` (`version.py`), `parse_MODULE_file_content`, `parse_versions`
  and module metadata reading (`bazel_wrapper.py`);
* `plan_module_updates` and `main` (`main.py`);
* `ModuleUpdateRunner.generate_files` (`bazel_wrapper.py`);
* the release filter of the legacy `scripts/check_and_update_modules.py`;
* theorems settling the claims.
-/

/-- Total comparison of naturals, written out so that its case analysis is
under our control in proofs. -/
def natCmp (a b : Nat) : Ordering :=
  if a < b then .lt else if b < a then .gt else .eq

/-- Characters compare by code point, as Python string comparison does. -/
def charCmp (a b : Char) : Ordering :=
  natCmp a.toNat b.toNat

/-- Generic lexicographic comparison of lists: element-wise by `f`, a strict
prefix comparing less than the longer list.  Python compares both strings and
prerelease identifier tuples this way. -/
def lexCmp (f : α → α → Ordering) : List α → List α → Ordering
  | [], [] => .eq
  | [], _ :: _ => .lt
  | _ :: _, [] => .gt
  | a :: as, b :: bs =>
    match f a b with
    | .eq => lexCmp f as bs
    | o => o

/-- Python `a < b` on strings (lexicographic by code point). -/
def rawLt (a b : String) : Bool :=
  lexCmp charCmp a.data b.data == .lt

/-- ASCII digit test, as used by the semver grammar. -/
def isDigitCh (c : Char) : Bool :=
  '0' ≤ c && c ≤ '9'

/-- ASCII letter test, as used by the semver grammar. -/
def isAlphaCh (c : Char) : Bool :=
  ('a' ≤ c && c ≤ 'z') || ('A' ≤ c && c ≤ 'Z')

/-- Characters allowed in semver prerelease/build identifiers: `[0-9A-Za-z-]`. -/
def isIdentCh (c : Char) : Bool :=
  isDigitCh c || isAlphaCh c || c == '-'

/-- Python regex `\s` over ASCII input: space, tab, newline, return, vertical
tab, form feed. -/
def isSpaceCh (c : Char) : Bool :=
  c == ' ' || c == '\t' || c == '\n' || c == '\r' || c == Char.ofNat 11 || c == Char.ofNat 12

/-- Value of a digit string (callers guarantee the characters are digits). -/
def digitsVal (l : List Char) : Nat :=
  l.foldl (fun acc c => acc * 10 + (c.toNat - 48)) 0

/-- Nonempty and all digits. -/
def isNumericIdent (l : List Char) : Bool :=
  !l.isEmpty && l.all isDigitCh

/-- The semver numeric-identifier rule `0|[1-9]\d*`: no leading zero unless
the identifier is exactly `0`. -/
def noLeadZero : List Char → Bool
  | [] => false
  | [_] => true
  | c :: _ :: _ => c != '0'

/-- Numeric version component: digits, no leading zero. -/
def parseNumStrict (l : List Char) : Option Nat :=
  if isNumericIdent l && noLeadZero l then some (digitsVal l) else none

/-- Split a character list at every occurrence of `sep`, Python
`str.split(sep)` semantics (never returns an empty list of parts). -/
def splitOnCharAux (sep : Char) : List Char → List Char → List (List Char)
  | [], acc => [acc.reverse]
  | c :: cs, acc =>
    if c == sep then acc.reverse :: splitOnCharAux sep cs []
    else splitOnCharAux sep cs (c :: acc)

/-- Split on a separator character. -/
def splitOnChar (sep : Char) (l : List Char) : List (List Char) :=
  splitOnCharAux sep l []

/-- Rejoin parts with a separator (inverse of `splitOnChar` on its output). -/
def intercalateChar (sep : Char) : List (List Char) → List Char
  | [] => []
  | [x] => x
  | x :: y :: xs => x ++ sep :: intercalateChar sep (y :: xs)

/-- A parsed semver prerelease identifier: numeric identifiers compare
numerically and below alphanumeric ones, which compare as strings. -/
inductive PreId where
  | num (n : Nat)
  | alpha (s : List Char)
deriving DecidableEq

/-- Parse one prerelease identifier: `0|[1-9]\d*|\d*[a-zA-Z-][0-9a-zA-Z-]*`
(nonempty over `[0-9A-Za-z-]`; an all-digit identifier must have no leading
zero and is numeric, anything else is alphanumeric). -/
def parsePreIdent (l : List Char) : Option PreId :=
  if l.isEmpty then none
  else if !l.all isIdentCh then none
  else if l.all isDigitCh then
    if noLeadZero l then some (.num (digitsVal l)) else none
  else some (.alpha l)

/-- A parsed semantic version; build metadata is validated during parsing but
not retained, since it never takes part in precedence. -/
structure SemVer where
  major : Nat
  minor : Nat
  patch : Nat
  prerelease : List PreId
deriving DecidableEq

/-- Parse the `major.minor.patch` version core. -/
def parseCore (l : List Char) : Option (Nat × Nat × Nat) :=
  match splitOnChar '.' l with
  | [ma, mi, pa] => do
    let a ← parseNumStrict ma
    let b ← parseNumStrict mi
    let c ← parseNumStrict pa
    some (a, b, c)
  | _ => none

/-- Parse a dot-separated prerelease section. -/
def parsePrerelease (l : List Char) : Option (List PreId) :=
  (splitOnChar '.' l).mapM parsePreIdent

/-- A build identifier: nonempty over `[0-9A-Za-z-]` (leading zeros allowed). -/
def validBuildIdent (l : List Char) : Bool :=
  !l.isEmpty && l.all isIdentCh

/-- Validate the build-metadata section. -/
def parseBuild (l : List Char) : Option Unit :=
  if (splitOnChar '.' l).all validBuildIdent then some () else none

/-- Parse the part before any `+`: the core, optionally followed by `-` and a
prerelease section (whose identifiers may themselves contain `-`, so all
split parts after the first are rejoined). -/
def semverParseNoBuild (corePre : List Char) : Option SemVer :=
  match splitOnChar '-' corePre with
  | [] => none
  | [core] => (parseCore core).map fun t => ⟨t.1, t.2.1, t.2.2, []⟩
  | core :: p :: rest => do
    let t ← parseCore core
    let pre ← parsePrerelease (intercalateChar '-' (p :: rest))
    some ⟨t.1, t.2.1, t.2.2, pre⟩

/-- The anchored semver.org grammar, as enforced by `semver.Version.parse`:
`core(-prerelease)?(+build)?`. -/
def semverParseChars (l : List Char) : Option SemVer :=
  match splitOnChar '+' l with
  | [corePre] => semverParseNoBuild corePre
  | [corePre, build] => do
    let v ← semverParseNoBuild corePre
    let _ ← parseBuild build
    some v
  | _ => none

/-- `semver.Version.parse`, as an `Option`: `version.py` turns the library's
`ValueError` into a `None` semver. -/
def semverParse (s : String) : Option SemVer :=
  semverParseChars s.data

/-- The repository's `Version` (version.py): a raw string; its parsed
semantic form is recomputed from the raw string on demand, exactly as the
constructor computes it once and stores it. -/
structure Version where
  raw : String
deriving DecidableEq

/-- Construct a `Version` from a string, as `Version.__init__` does. -/
def mkVersion (s : String) : Version := ⟨s⟩

/-- The `semver` property of a `Version`. -/
def Version.semver (v : Version) : Option SemVer :=
  semverParse v.raw

/-- `cmp_prerelease_tag` of the semver library: numeric identifiers compare
numerically and are lower than alphanumeric ones, which compare as strings. -/
def identCmp : PreId → PreId → Ordering
  | .num a, .num b => natCmp a b
  | .num _, .alpha _ => .lt
  | .alpha _, .num _ => .gt
  | .alpha a, .alpha b => lexCmp charCmp a b

/-- Prerelease comparison in `semver._cmp`: a release (no prerelease) is
higher than any prerelease; two prereleases compare identifier-wise with the
shorter strict prefix lower. -/
def preCmp : List PreId → List PreId → Ordering
  | [], [] => .eq
  | [], _ :: _ => .gt
  | _ :: _, [] => .lt
  | a :: as, b :: bs => lexCmp identCmp (a :: as) (b :: bs)

/-- `semver.Version.compare`: the `(major, minor, patch)` triple
lexicographically, then the prerelease rule. -/
def svCmp (a b : SemVer) : Ordering :=
  (natCmp a.major b.major).then ((natCmp a.minor b.minor).then
    ((natCmp a.patch b.patch).then (preCmp a.prerelease b.prerelease)))

/-- `Version.__lt__`: semantic comparison when both operands parsed, raw
lexical string comparison otherwise. -/
def vLt (a b : Version) : Bool :=
  match a.semver, b.semver with
  | some x, some y => svCmp x y == .lt
  | _, _ => rawLt a.raw b.raw

/-- `Version.__eq__`: raw string equality (intentionally not semantic
equivalence). -/
def vEq (a b : Version) : Bool :=
  a.raw == b.raw

example : semverParse "1.0.0" = some ⟨1, 0, 0, []⟩ := by decide
example : semverParse "01.0.0" = none := by decide
example : semverParse "foo" = none := by decide
example : semverParse "1.0.5x" = none := by decide
example : (semverParse "2.0.1-alpha.5").isSome = true := by decide
example : semverParse "1.2" = none := by decide
example : semverParse "1.2.3-" = none := by decide
example : (semverParse "1.2.3+build.7").isSome = true := by decide
example : vLt (mkVersion "1.0.0") (mkVersion "1.0.1") = true := by decide
example : vLt (mkVersion "1.0.9") (mkVersion "1.0.10") = true := by decide
example : vLt (mkVersion "1.0.0-alpha") (mkVersion "1.0.0") = true := by decide
example : vLt (mkVersion "A") (mkVersion "B") = true := by decide
example : vLt (mkVersion "1.5.5") (mkVersion "2.0.1-alpha.5") = true := by decide
example : vLt (mkVersion "2.0.1-alpha.4") (mkVersion "2.0.1-alpha.5") = true := by decide
example : vLt (mkVersion "2.0.1-alpha") (mkVersion "2.0.1-alpha.4") = true := by decide

/-! ### Comparator lemmas

Transitivity facts for the comparison functions above, used to settle the
ordering claims about `Version.__lt__`. -/

theorem natCmp_eq_iff {a b : Nat} : natCmp a b = .eq ↔ a = b := by
  unfold natCmp
  split
  · rename_i h
    constructor
    · intro hx; exact nomatch hx
    · intro hx; omega
  · split
    · rename_i h h2
      constructor
      · intro hx; exact nomatch hx
      · intro hx; omega
    · rename_i h h2
      constructor
      · intro _; omega
      · intro _; rfl

theorem natCmp_lt_iff {a b : Nat} : natCmp a b = .lt ↔ a < b := by
  unfold natCmp
  split
  · rename_i h; simp [h]
  · split
    · rename_i h h2
      constructor
      · intro hx; exact nomatch hx
      · intro hx; omega
    · rename_i h h2
      constructor
      · intro hx; exact nomatch hx
      · intro hx; omega

theorem natCmp_lt_trans {a b c : Nat} (h1 : natCmp a b = .lt) (h2 : natCmp b c = .lt) :
    natCmp a c = .lt := by
  rw [natCmp_lt_iff] at *
  omega

theorem natThen_lt {x y : Nat} {r : Ordering} :
    (natCmp x y).then r = .lt ↔ x < y ∨ (x = y ∧ r = .lt) := by
  unfold natCmp
  split
  · rename_i h
    constructor
    · intro _; exact Or.inl h
    · intro _; rfl
  · split
    · rename_i h h2
      constructor
      · intro hx; exact nomatch hx
      · intro hx
        rcases hx with hx | ⟨hx, _⟩
        · exact absurd hx h
        · exact absurd hx (by omega)
    · rename_i h h2
      constructor
      · intro hr; exact Or.inr ⟨by omega, hr⟩
      · intro hx
        rcases hx with hx | ⟨_, hr⟩
        · exact absurd hx h
        · exact hr

theorem lexCmp_lt_trans (f : α → α → Ordering)
    (hlt : ∀ a b c, f a b = .lt → f b c = .lt → f a c = .lt)
    (heql : ∀ a b, f a b = .eq → ∀ c, f a c = f b c)
    (heqr : ∀ a b, f a b = .eq → ∀ c, f c a = f c b) :
    ∀ l1 l2 l3, lexCmp f l1 l2 = .lt → lexCmp f l2 l3 = .lt → lexCmp f l1 l3 = .lt := by
  intro l1
  induction l1 with
  | nil =>
    intro l2 l3 h1 h2
    cases l2 with
    | nil => exact nomatch h1
    | cons b bs =>
      cases l3 with
      | nil => exact nomatch h2
      | cons c cs => rfl
  | cons a as ih =>
    intro l2 l3 h1 h2
    cases l2 with
    | nil => exact nomatch h1
    | cons b bs =>
      cases l3 with
      | nil => exact nomatch h2
      | cons c cs =>
        simp only [lexCmp] at h1 h2 ⊢
        cases hab : f a b with
        | lt =>
          cases hbc : f b c with
          | lt => rw [hlt a b c hab hbc]
          | eq => rw [← heqr b c hbc a, hab]
          | gt => rw [hbc] at h2; exact nomatch h2
        | eq =>
          rw [hab] at h1
          cases hbc : f b c with
          | lt => rw [heql a b hab c, hbc]
          | eq =>
            rw [hbc] at h2
            rw [heql a b hab c, hbc]
            exact ih bs cs h1 h2
          | gt => rw [hbc] at h2; exact nomatch h2
        | gt => rw [hab] at h1; exact nomatch h1

theorem lexCmp_congr_left (f : α → α → Ordering)
    (heql : ∀ a b, f a b = .eq → ∀ c, f a c = f b c) :
    ∀ l1 l2, lexCmp f l1 l2 = .eq → ∀ l3, lexCmp f l1 l3 = lexCmp f l2 l3 := by
  intro l1
  induction l1 with
  | nil =>
    intro l2 h l3
    cases l2 with
    | nil => rfl
    | cons b bs => exact nomatch h
  | cons a as ih =>
    intro l2 h l3
    cases l2 with
    | nil => exact nomatch h
    | cons b bs =>
      simp only [lexCmp] at h
      cases hab : f a b with
      | lt => rw [hab] at h; exact nomatch h
      | gt => rw [hab] at h; exact nomatch h
      | eq =>
        rw [hab] at h
        cases l3 with
        | nil => rfl
        | cons c cs =>
          simp only [lexCmp]
          rw [heql a b hab c]
          cases f b c with
          | lt => rfl
          | gt => rfl
          | eq => exact ih bs h cs

theorem lexCmp_congr_right (f : α → α → Ordering)
    (heqr : ∀ a b, f a b = .eq → ∀ c, f c a = f c b) :
    ∀ l1 l2, lexCmp f l1 l2 = .eq → ∀ l3, lexCmp f l3 l1 = lexCmp f l3 l2 := by
  intro l1
  induction l1 with
  | nil =>
    intro l2 h l3
    cases l2 with
    | nil => rfl
    | cons b bs => exact nomatch h
  | cons a as ih =>
    intro l2 h l3
    cases l2 with
    | nil => exact nomatch h
    | cons b bs =>
      simp only [lexCmp] at h
      cases hab : f a b with
      | lt => rw [hab] at h; exact nomatch h
      | gt => rw [hab] at h; exact nomatch h
      | eq =>
        rw [hab] at h
        cases l3 with
        | nil => rfl
        | cons c cs =>
          simp only [lexCmp]
          rw [heqr a b hab c]
          cases f c b with
          | lt => rfl
          | gt => rfl
          | eq => exact ih bs h cs

theorem charCmp_lt_trans {a b c : Char} (h1 : charCmp a b = .lt) (h2 : charCmp b c = .lt) :
    charCmp a c = .lt :=
  natCmp_lt_trans h1 h2

theorem charCmp_congr_left {a b : Char} (h : charCmp a b = .eq) (c : Char) :
    charCmp a c = charCmp b c := by
  unfold charCmp at *
  rw [natCmp_eq_iff] at h
  rw [h]

theorem charCmp_congr_right {a b : Char} (h : charCmp a b = .eq) (c : Char) :
    charCmp c a = charCmp c b := by
  unfold charCmp at *
  rw [natCmp_eq_iff] at h
  rw [h]

theorem ordBeqLt_iff {o : Ordering} : (o == Ordering.lt) = true ↔ o = .lt := by
  cases o <;> decide

theorem rawLt_trans {a b c : String} (h1 : rawLt a b = true) (h2 : rawLt b c = true) :
    rawLt a c = true := by
  unfold rawLt at h1 h2 ⊢
  rw [ordBeqLt_iff] at h1 h2 ⊢
  exact lexCmp_lt_trans charCmp (fun _ _ _ => charCmp_lt_trans)
    (fun _ _ h => charCmp_congr_left h) (fun _ _ h => charCmp_congr_right h) _ _ _ h1 h2

theorem identCmp_lt_trans :
    ∀ {a b c : PreId}, identCmp a b = .lt → identCmp b c = .lt → identCmp a c = .lt
  | .num _, .num _, .num _, h1, h2 => natCmp_lt_trans h1 h2
  | .num _, .num _, .alpha _, _, _ => rfl
  | .num _, .alpha _, .alpha _, _, _ => rfl
  | .num _, .alpha _, .num _, _, h2 => nomatch h2
  | .alpha _, .num _, .num _, h1, _ => nomatch h1
  | .alpha _, .num _, .alpha _, h1, _ => nomatch h1
  | .alpha _, .alpha _, .num _, _, h2 => nomatch h2
  | .alpha _, .alpha _, .alpha _, h1, h2 =>
    lexCmp_lt_trans charCmp (fun _ _ _ => charCmp_lt_trans)
      (fun _ _ h => charCmp_congr_left h) (fun _ _ h => charCmp_congr_right h) _ _ _ h1 h2

theorem identCmp_congr_left :
    ∀ {a b : PreId}, identCmp a b = .eq → ∀ c, identCmp a c = identCmp b c
  | .num x, .num y, h, c => by
    simp only [identCmp] at h
    rw [natCmp_eq_iff] at h
    subst h
    rfl
  | .num _, .alpha _, h, _ => nomatch h
  | .alpha _, .num _, h, _ => nomatch h
  | .alpha _, .alpha _, _, .num _ => rfl
  | .alpha x, .alpha y, h, .alpha z => by
    simp only [identCmp] at h ⊢
    exact lexCmp_congr_left charCmp (fun _ _ hh => charCmp_congr_left hh) _ _ h _

theorem identCmp_congr_right :
    ∀ {a b : PreId}, identCmp a b = .eq → ∀ c, identCmp c a = identCmp c b
  | .num x, .num y, h, c => by
    simp only [identCmp] at h
    rw [natCmp_eq_iff] at h
    subst h
    rfl
  | .num _, .alpha _, h, _ => nomatch h
  | .alpha _, .num _, h, _ => nomatch h
  | .alpha _, .alpha _, _, .num _ => rfl
  | .alpha x, .alpha y, h, .alpha z => by
    simp only [identCmp] at h ⊢
    exact lexCmp_congr_right charCmp (fun _ _ hh => charCmp_congr_right hh) _ _ h _

theorem lexIdent_lt_trans {l1 l2 l3 : List PreId}
    (h1 : lexCmp identCmp l1 l2 = .lt) (h2 : lexCmp identCmp l2 l3 = .lt) :
    lexCmp identCmp l1 l3 = .lt :=
  lexCmp_lt_trans identCmp (fun _ _ _ => identCmp_lt_trans)
    (fun _ _ h => identCmp_congr_left h) (fun _ _ h => identCmp_congr_right h) _ _ _ h1 h2

theorem preCmp_lt_trans :
    ∀ {a b c : List PreId}, preCmp a b = .lt → preCmp b c = .lt → preCmp a c = .lt
  | [], [], _, h1, _ => nomatch h1
  | [], _ :: _, _, h1, _ => nomatch h1
  | _ :: _, [], [], _, h2 => nomatch h2
  | _ :: _, [], _ :: _, _, h2 => nomatch h2
  | _ :: _, _ :: _, [], _, _ => rfl
  | _ :: _, _ :: _, _ :: _, h1, h2 => by
    simp only [preCmp] at h1 h2 ⊢
    exact lexIdent_lt_trans h1 h2

theorem svCmp_lt_trans {a b c : SemVer}
    (h1 : svCmp a b = .lt) (h2 : svCmp b c = .lt) : svCmp a c = .lt := by
  unfold svCmp at *
  rw [natThen_lt] at h1 h2 ⊢
  rcases h1 with h1 | ⟨e1, h1⟩ <;> rcases h2 with h2 | ⟨e2, h2⟩
  · exact Or.inl (by omega)
  · exact Or.inl (by omega)
  · exact Or.inl (by omega)
  · refine Or.inr ⟨by omega, ?_⟩
    rw [natThen_lt] at h1 h2 ⊢
    rcases h1 with h1 | ⟨f1, h1⟩ <;> rcases h2 with h2 | ⟨f2, h2⟩
    · exact Or.inl (by omega)
    · exact Or.inl (by omega)
    · exact Or.inl (by omega)
    · refine Or.inr ⟨by omega, ?_⟩
      rw [natThen_lt] at h1 h2 ⊢
      rcases h1 with h1 | ⟨g1, h1⟩ <;> rcases h2 with h2 | ⟨g2, h2⟩
      · exact Or.inl (by omega)
      · exact Or.inl (by omega)
      · exact Or.inl (by omega)
      · exact Or.inr ⟨by omega, preCmp_lt_trans h1 h2⟩

/-! ### Python error model and module data structures -/

/-- Exceptions the embedded code can raise. -/
inductive PyErr where
  | valueError
  | runtimeError
  | assertionError
  | systemExit
  | osError
deriving DecidableEq

/-- Decimal digits of a natural number (fuelled, kernel-reducible). -/
def natDigitsAux : Nat → Nat → List Char → List Char
  | 0, _, acc => acc
  | fuel + 1, n, acc =>
    if n < 10 then Char.ofNat (48 + n) :: acc
    else natDigitsAux fuel (n / 10) (Char.ofNat (48 + n % 10) :: acc)

/-- Decimal representation of a natural number, as Python `str(n)` for `n ≥ 0`. -/
def natDigits (n : Nat) : List Char :=
  natDigitsAux (n + 1) n []

/-- Quote characters of the quote character class: code point 39 (single
quote) or a double quote. -/
def isQuoteCh (c : Char) : Bool :=
  c == Char.ofNat 39 || c == '"'

/-- Match a literal character sequence, returning the remainder. -/
def matchLiteral : List Char → List Char → Option (List Char)
  | [], rest => some rest
  | _ :: _, [] => none
  | p :: ps, c :: cs => if c == p then matchLiteral ps cs else none

/-- Match the regex `(version\s*=\s*['\"])([^'\"]+)(['\"])` at the head of the
input.  Returns the text of group 1, the value (group 2), the closing quote
(group 3) and the rest of the input.  Maximal munch is unambiguous here: the
whitespace run stops at `=`, and the value runs to the first quote char. -/
def matchVersionAt (l : List Char) : Option (List Char × List Char × Char × List Char) := do
  let r1 ← matchLiteral "version".data l
  let ws1 := r1.takeWhile isSpaceCh
  let r2 := r1.dropWhile isSpaceCh
  let r3 ← match r2 with
    | c :: cs => if c == '=' then some cs else none
    | [] => none
  let ws2 := r3.takeWhile isSpaceCh
  let r4 := r3.dropWhile isSpaceCh
  match r4 with
  | q :: r5 =>
    if isQuoteCh q then
      let value := r5.takeWhile (fun c => !isQuoteCh c)
      let r6 := r5.dropWhile (fun c => !isQuoteCh c)
      match r6 with
      | q2 :: r7 =>
        if value.isEmpty then none
        else some ("version".data ++ ws1 ++ '=' :: ws2 ++ [q], value, q2, r7)
      | [] => none
    else none
  | [] => none

/-- First match of `version\s*=\s*['\"]([^'\"]+)['\"]` anywhere in the input
(`re.search` scans left to right), returning the quoted value. -/
def findVersionValue : List Char → Option (List Char)
  | [] => none
  | c :: cs =>
    match matchVersionAt (c :: cs) with
    | some r => some r.2.1
    | none => findVersionValue cs

/-- `re.sub(r"(version\s*=\s*['\"])([^'\"]+)(['\"])", ..., count=1)`: replace
the value of the first matched version attribute, keeping both quotes. -/
def subVersionFirst (repl : List Char) : List Char → List Char
  | [] => []
  | c :: cs =>
    match matchVersionAt (c :: cs) with
    | some (g1, _, q2, rest) => g1 ++ repl ++ q2 :: rest
    | none => c :: subVersionFirst repl cs

/-- Match `(compatibility_level\s*=\s*)(\d+)` at the head of the input.
Returns group 1, the digit run (group 2) and the rest. -/
def matchCompLevelAt (l : List Char) : Option (List Char × List Char × List Char) := do
  let r1 ← matchLiteral "compatibility_level".data l
  let ws1 := r1.takeWhile isSpaceCh
  let r2 := r1.dropWhile isSpaceCh
  let r3 ← match r2 with
    | c :: cs => if c == '=' then some cs else none
    | [] => none
  let ws2 := r3.takeWhile isSpaceCh
  let r4 := r3.dropWhile isSpaceCh
  let digits := r4.takeWhile isDigitCh
  if digits.isEmpty then none
  else some ("compatibility_level".data ++ ws1 ++ '=' :: ws2, digits, r4.dropWhile isDigitCh)

/-- First match of `compatibility_level\s*=\s*(\d+)`, returning `int(group 1)`. -/
def findCompLevel : List Char → Option Nat
  | [] => none
  | c :: cs =>
    match matchCompLevelAt (c :: cs) with
    | some r => some (digitsVal r.2.1)
    | none => findCompLevel cs

/-- `re.sub(r"(compatibility_level\s*=\s*)(\d+)", ..., count=1)`: replace the
digits of the first matched compatibility level. -/
def subCompLevelFirst (n : Nat) : List Char → List Char
  | [] => []
  | c :: cs =>
    match matchCompLevelAt (c :: cs) with
    | some (g1, _, rest) => g1 ++ natDigits n ++ rest
    | none => c :: subCompLevelFirst n cs

/-- Parsed MODULE.bazel declaration (`ModuleFileContent` in `__init__.py`). -/
structure ModuleFileContent where
  content : String
  comp_level : Option Nat
  version : Option Version
deriving DecidableEq

/-- The `major_version` property: semantic major of the declared version, or
absent when the version is undeclared or not semantic. -/
def ModuleFileContent.major_version (m : ModuleFileContent) : Option Nat :=
  match m.version with
  | none => none
  | some v => v.semver.map SemVer.major

/-- `parse_MODULE_file_content` of `bazel_wrapper.py`: regex extraction of the
compatibility level and the quoted version (first match wins; a matched
version group is nonempty, hence always truthy). -/
def parse_MODULE_file_content (content : String) : ModuleFileContent :=
  { content := content
    comp_level := findCompLevel content.data
    version := (findVersionValue content.data).map fun v => mkVersion (String.mk v) }

/-- Registry-side module info (`BazelModuleInfo` in `__init__.py`); the path
is kept as a string. -/
structure BazelModuleInfo where
  path : String
  name : String
  org_and_repo : String
  versions : List Version
  periodic_pull : Bool
  obsolete : Bool
deriving DecidableEq

/-- The `latest_version` property raises `ValueError` on an empty version
list. -/
def latest_version (m : BazelModuleInfo) : Except PyErr Version :=
  match m.versions with
  | [] => .error .valueError
  | v :: _ => .ok v

/-- GitHub release info (`GitHubReleaseInfo` in `github_wrapper.py`); the
publish timestamp is only used inside the network collaborator to pick the
latest release and is not needed by the embedded core. -/
structure ReleaseInfo where
  org_and_repo : String
  version : Version
  tag_name : String
  prerelease : Bool
deriving DecidableEq

/-- The `tarball` property of a release. -/
def ReleaseInfo.tarball (r : ReleaseInfo) : String :=
  "https://github.com/" ++ r.org_and_repo ++ "/archive/refs/tags/" ++ r.tag_name ++ ".tar.gz"

/-- An update task (`ModuleUpdateInfo` in `__init__.py`). -/
structure ModuleUpdateInfo where
  module : BazelModuleInfo
  release : ReleaseInfo
  mod_file : ModuleFileContent
deriving DecidableEq

/-- One step of Python `sorted(vs, reverse=True)`: stable descending
insertion (an element is inserted before the first element it is not below;
elements are consumed right to left, so ties keep their original order). -/
def orderedInsertDesc (v : Version) : List Version → List Version
  | [] => [v]
  | w :: ws => if !vLt v w then v :: w :: ws else w :: orderedInsertDesc v ws

/-- Python `sorted(vs, reverse=True)` under the `Version` order. -/
def sortVersionsDesc : List Version → List Version
  | [] => []
  | v :: vs => orderedInsertDesc v (sortVersionsDesc vs)

/-- `_parse_versions` of `bazel_wrapper.py` on an already-shaped list of
version strings: wrap each string in a `Version` and sort descending. -/
def parse_versions (raws : List String) : List Version :=
  sortVersionsDesc (raws.map mkVersion)

example : parse_versions ["1.0.9", "1.0.10"] = [mkVersion "1.0.10", mkVersion "1.0.9"] := by
  decide

/-! ### The Update Planner (`main.py`) -/

/-- The parsed command-line arguments that `plan_module_updates` consults. -/
structure Args where
  modules : List String

/-- The GitHub collaborator as consumed by the Planner: total functions from
coordinates (and tag) to an optional release / optional file content.  The
caching in `github_wrapper.py` makes repeated calls return the same value,
which is automatic for a pure function. -/
structure GH where
  get_latest_release : String → Option ReleaseInfo
  try_get_module_file_content : String → String → Option String

/-- The per-module body of the `plan_module_updates` loop.  Returns the task
appended for this module (if any) and the warnings recorded on the `main`
module's logger; raises `ValueError` when `latest_version` is read on a
module with no versions. -/
def planStep (args : Args) (gh : GH) (module : BazelModuleInfo) :
    Except PyErr (Option ModuleUpdateInfo × List String) :=
  if !module.periodic_pull && args.modules.isEmpty then
    .ok (none, [])
  else
    match gh.get_latest_release module.org_and_repo with
    | none => .ok (none, [])
    | some rel =>
      match module.versions with
      | [] => .error .valueError
      | v0 :: _ =>
        if v0.raw == rel.version.raw then
          .ok (none, [])
        else if rel.version.semver.isNone then
          .ok (none, ["Latest release " ++ rel.version.raw ++ " of " ++ module.name ++
            " is not a valid semantic version; skipping."])
        else
          match gh.try_get_module_file_content module.org_and_repo rel.tag_name with
          | some content =>
            .ok (some ⟨module, rel, parse_MODULE_file_content content⟩, [])
          | none =>
            .ok (none, ["Could not retrieve MODULE.bazel for " ++ module.name ++
              " at tag " ++ rel.tag_name ++ "; skipping."])

/-- Fold of `planStep` over the module list, in order. -/
def planAux (args : Args) (gh : GH) :
    List BazelModuleInfo → Except PyErr (List ModuleUpdateInfo × List String)
  | [] => .ok ([], [])
  | m :: ms =>
    match planStep args gh m with
    | .error e => .error e
    | .ok (t, w) =>
      match planAux args gh ms with
      | .error e => .error e
      | .ok (ts, ws) => .ok (t.toList ++ ts, w ++ ws)

/-- `plan_module_updates` of `main.py`: check each module against the
collaborator's latest release and build the task list; skips log (possibly a
warning) and never raise, except that reading `latest_version` of a module
with an empty version list raises `ValueError`. -/
def plan_module_updates (args : Args) (gh : GH) (modules : List BazelModuleInfo) :
    Except PyErr (List ModuleUpdateInfo × List String) :=
  planAux args gh modules

/-- Decidable equality for `Except`, so concrete runs of the embedded
fallible functions can be checked by `decide`. -/
instance {e a : Type} [DecidableEq e] [DecidableEq a] : DecidableEq (Except e a) := fun x y =>
  match x, y with
  | .ok u, .ok v =>
    if h : u = v then .isTrue (by subst h; rfl)
    else .isFalse fun hx => h (by injection hx)
  | .ok _, .error _ => .isFalse fun hx => by injection hx
  | .error _, .ok _ => .isFalse fun hx => by injection hx
  | .error u, .error v =>
    if h : u = v then .isTrue (by subst h; rfl)
    else .isFalse fun hx => h (by injection hx)

/-! ### File generation (`ModuleUpdateRunner` of `bazel_wrapper.py`)

The runner is parameterised by the hashing collaborator (`sha256_from_url`,
`sha256_from_string`) and the diff collaborator (`difflib.unified_diff`),
which are external to the repository. -/

/-- `_add_version_to_metadata`: parse and sort the persisted versions, raise
`RuntimeError` when the release version is already present (the membership
test uses `Version.__eq__`, i.e. raw-string equality) — the file is rewritten
only after this check — and otherwise prepend the new version. -/
def add_version_to_metadata (rel : Version) (oldRaws : List String) :
    Except PyErr (List String) :=
  let versions := parse_versions oldRaws
  if versions.any (fun v => vEq rel v) then .error .runtimeError
  else .ok (rel.raw :: versions.map Version.raw)

/-- The stamped content of `_create_patch_for_module_version_if_mismatch`:
substitute the first version attribute with the release version and, only
when the release version is semantic, substitute the first compatibility
level with its major number. -/
def stamped_module_content (info : ModuleUpdateInfo) : String :=
  let stamped1 := subVersionFirst info.release.version.raw.data info.mod_file.content.data
  match info.release.version.semver with
  | some sv => String.mk (subCompLevelFirst sv.major stamped1)
  | none => String.mk stamped1

/-- Name of the single patch artifact. -/
def patchFileName : String := "module_dot_bazel_version.patch"

/-- `_create_patch_for_module_version_if_mismatch`: no patch when the declared
version raw-equals the release version and the declared major equals the
declared compatibility level; otherwise produce the stamped content and
record the unified-diff patch.  When the declaration has no version
attribute, `None == Version` dispatches to the reflected `Version.__eq__`,
whose `isinstance` assertion fails. -/
def create_patch_given_version (mkDiff : String → String → String)
    (info : ModuleUpdateInfo) (dv : Version) :
    Except PyErr (Option String × List (String × String)) :=
  if vEq dv info.release.version &&
      (info.mod_file.major_version == info.mod_file.comp_level) then
    .ok (none, [])
  else
    .ok (some (stamped_module_content info),
      [(patchFileName, mkDiff info.mod_file.content (stamped_module_content info))])

def create_patch_for_module_version_if_mismatch (mkDiff : String → String → String)
    (info : ModuleUpdateInfo) : Except PyErr (Option String × List (String × String)) :=
  match info.mod_file.version with
  | none => .error .assertionError
  | some dv => create_patch_given_version mkDiff info dv

/-- The source descriptor written as `source.json`. -/
structure SourceJson where
  integrity : String
  strip_pfx : String
  url : String
  patch_strip : Option Nat
  patches : Option (List (String × String))
deriving DecidableEq

/-- Python `s.split(sep)[-1]`. -/
def lastSplitComponent (sep : Char) (s : String) : String :=
  String.mk ((splitOnChar sep s.data).getLastD [])

/-- `_generate_source_json`: integrity hash of the tarball, strip prefix from
the repository short name and release version, and the patches/patch_strip
fields exactly when the patches dict is nonempty. -/
def generate_source_json (hashUrl hashStr : String → String)
    (info : ModuleUpdateInfo) (patches : List (String × String)) : SourceJson :=
  let repo := lastSplitComponent '/' info.module.org_and_repo
  let url := info.release.tarball
  { integrity := hashUrl url
    strip_pfx := repo ++ "-" ++ info.release.version.raw
    url := url
    patch_strip := if patches.isEmpty then none else some 1
    patches := if patches.isEmpty then none
               else some (patches.map fun p => (p.1, hashStr p.2)) }

/-- `_write_files`: the MODULE.bazel written for the version; `if
patched_module_file:` is Python truthiness, so an empty patched string falls
back to the original content. -/
def write_files_module_bazel (patched : Option String) (info : ModuleUpdateInfo) : String :=
  match patched with
  | some p => if p == "" then info.mod_file.content else p
  | none => info.mod_file.content

/-- Everything `generate_files` persists for one task. -/
structure RunnerResult where
  metadataVersions : List String
  moduleBazel : String
  patchFiles : List (String × String)
  source : SourceJson
deriving DecidableEq

/-- `ModuleUpdateRunner.generate_files`, in source order: update metadata
(fatal on duplicate), decide/produce the patch, build source.json, write the
module file and patches.  An exception aborts before any later step. -/
def generate_files (hashUrl hashStr : String → String) (mkDiff : String → String → String)
    (info : ModuleUpdateInfo) (oldRaws : List String) : Except PyErr RunnerResult :=
  match add_version_to_metadata info.release.version oldRaws with
  | .error e => .error e
  | .ok newVers =>
    match create_patch_for_module_version_if_mismatch mkDiff info with
    | .error e => .error e
    | .ok (patched, patches) =>
      .ok ⟨newVers, write_files_module_bazel patched info, patches,
        generate_source_json hashUrl hashStr info patches⟩

/-! ### Metadata reading and the `main` entry point -/

/-- The JSON-level content of a module's `metadata.json`, to the depth the
reader inspects it.  `repository = none` models a missing or non-list
`repository` field; `versions` is kept as a list of strings (a non-list
`versions` field is a `log.fatal` in `_parse_versions`, not exercised
here). -/
structure MetaJson where
  repository : Option (List String)
  versions : List String
  periodicPull : Bool
  obsolete : Bool

/-- One directory entry under `modules/`: its name, whether it is a
directory, and its metadata file (`none`: no `metadata.json`; `some none`:
present but not parseable as JSON). -/
structure ModuleDir where
  dirName : String
  isDir : Bool
  metadata : Option (Option MetaJson)

/-- `try_parse_metadata_json`: silent `None` for a non-directory, warnings
(on the `bazel_wrapper` logger) for missing/unparseable metadata, a module
name without the `score_` naming convention (non-fatal, parsing continues),
an invalid `repository` field, or a non-GitHub repository. -/
def try_parse_metadata_json (d : ModuleDir) : Option BazelModuleInfo × List String :=
  if !d.isDir then (none, [])
  else
    match d.metadata with
    | none => (none, ["modules/" ++ d.dirName ++ "/metadata.json does not exist; skipping"])
    | some parsed =>
      let prefixWarn :=
        if !("score_".data.isPrefixOf d.dirName.data) then
          ["modules/" ++ d.dirName ++ " is not prefixed with score_"]
        else []
      match parsed with
      | none =>
        (none, prefixWarn ++ ["modules/" ++ d.dirName ++ "/metadata.json could not be parsed"])
      | some mj =>
        match mj.repository with
        | none =>
          (none, prefixWarn ++
            ["modules/" ++ d.dirName ++ "/metadata.json has invalid repository field; expected one element"])
        | some repos =>
          if repos.length != 1 then
            (none, prefixWarn ++
              ["modules/" ++ d.dirName ++ "/metadata.json has invalid repository field; expected one element"])
          else
            let repo := repos.headD ""
            if !("github:".data.isPrefixOf repo.data) then
              (none, prefixWarn ++
                ["modules/" ++ d.dirName ++ "/metadata.json has non-GitHub repository; skipping"])
            else
              (some { path := "modules/" ++ d.dirName
                      name := d.dirName
                      org_and_repo := String.mk (repo.data.drop 7)
                      versions := parse_versions mj.versions
                      periodic_pull := mj.periodicPull
                      obsolete := mj.obsolete }, prefixWarn)

/-- `read_modules` with no explicit names: iterate every directory entry,
keeping non-obsolete parseable modules and accumulating warnings. -/
def read_modules_all : List ModuleDir → (List BazelModuleInfo × List String)
  | [] => ([], [])
  | d :: ds =>
    let (m, w) := try_parse_metadata_json d
    let (ms, ws) := read_modules_all ds
    match m with
    | some mi => (if !mi.obsolete then mi :: ms else ms, w ++ ws)
    | none => (ms, w ++ ws)

/-- `read_modules` with explicit names: look each name up; a module that
cannot be found or parsed is `log.fatal` (`SystemExit`), aborting the run. -/
def read_modules_named (registry : List ModuleDir) :
    List String → Except PyErr (List BazelModuleInfo) × List String
  | [] => (.ok [], [])
  | n :: ns =>
    let found := registry.find? fun d => d.dirName == n
    let (m, w) :=
      match found with
      | some dir => try_parse_metadata_json dir
      | none => (none, [])
    match m with
    | some mi =>
      let (rest, ws) := read_modules_named registry ns
      (rest.map (fun ms => if !mi.obsolete then mi :: ms else ms), w ++ ws)
    | none => (.error .systemExit, w)

/-- `read_modules` of `bazel_wrapper.py`; the returned warning list is the
`bazel_wrapper` logger's accumulated warnings. -/
def read_modules (names : List String) (registry : List ModuleDir) :
    Except PyErr (List BazelModuleInfo) × List String :=
  if names.isEmpty then
    let (ms, ws) := read_modules_all registry
    (.ok ms, ws)
  else read_modules_named registry names

/-- The metadata versions on disk, per module name, as the runner reads them
back. -/
def fsOfRegistry (registry : List ModuleDir) : List (String × List String) :=
  registry.filterMap fun d =>
    match d.metadata with
    | some (some mj) => some (d.dirName, mj.versions)
    | _ => none

/-- The task loop of `main`: run `generate_files` for each task in order,
threading the on-disk metadata; a missing metadata file is an `OSError`. -/
def runTasks (hashUrl hashStr : String → String) (mkDiff : String → String → String) :
    List ModuleUpdateInfo → List (String × List String) →
    Except PyErr (List (String × List String))
  | [], fs => .ok fs
  | t :: ts, fs =>
    match fs.find? (fun e => e.1 == t.module.name) with
    | none => .error .osError
    | some entry =>
      match generate_files hashUrl hashStr mkDiff t entry.2 with
      | .error e => .error e
      | .ok r =>
        runTasks hashUrl hashStr mkDiff ts
          (fs.map fun e => if e.1 == t.module.name then (e.1, r.metadataVersions) else e)

/-- The observable outcome of one `main` run: the process exit code, the
warnings accumulated on `main`'s logger and those on `bazel_wrapper`'s
logger. -/
structure MainOutcome where
  exitCode : Nat
  mainWarnings : List String
  bazelWarnings : List String
deriving DecidableEq

/-- `main` of `main.py`: read modules, plan, run the tasks, then exit
non-zero via `log.fatal` iff `log.warnings` — the `main` module logger's own
list — is nonempty.  Any uncaught exception also exits non-zero. -/
def mainRun (hashUrl hashStr : String → String) (mkDiff : String → String → String)
    (argsModules : List String) (gh : GH) (registry : List ModuleDir) : MainOutcome :=
  let (res, bw) := read_modules argsModules registry
  match res with
  | .error _ => ⟨1, [], bw⟩
  | .ok modules =>
    match plan_module_updates ⟨argsModules⟩ gh modules with
    | .error _ => ⟨1, [], bw⟩
    | .ok (tasks, mw) =>
      match runTasks hashUrl hashStr mkDiff tasks (fsOfRegistry registry) with
      | .error _ => ⟨1, mw, bw⟩
      | .ok _ => ⟨if mw.isEmpty then 0 else 1, mw, bw⟩

/-! ### The legacy updater script (`scripts/check_and_update_modules.py`) -/

/-- Match `\d+\.\d+\.\d+-[A-Za-z]+` at the head of the input. -/
def matchPrereleasePattern (l : List Char) : Bool :=
  let d1 := l.takeWhile isDigitCh
  let r1 := l.dropWhile isDigitCh
  if d1.isEmpty then false
  else
    match r1 with
    | c1 :: r2 =>
      if c1 != '.' then false
      else
        let d2 := r2.takeWhile isDigitCh
        let r3 := r2.dropWhile isDigitCh
        if d2.isEmpty then false
        else
          match r3 with
          | c2 :: r4 =>
            if c2 != '.' then false
            else
              let d3 := r4.takeWhile isDigitCh
              let r5 := r4.dropWhile isDigitCh
              if d3.isEmpty then false
              else
                match r5 with
                | c3 :: r6 =>
                  if c3 != '-' then false
                  else
                    match r6 with
                    | c4 :: _ => isAlphaCh c4
                    | [] => false
                | [] => false
          | [] => false
    | [] => false

/-- `re.search` of the pattern anywhere in the input. -/
def searchPrereleasePattern : List Char → Bool
  | [] => false
  | c :: cs => matchPrereleasePattern (c :: cs) || searchPrereleasePattern cs

/-- The prerelease-tag validation of `enrich_modules`: the tag must contain a
version core followed by a dash and an alphabetic suffix. -/
def tagHasPrereleaseSuffix (tag : String) : Bool :=
  searchPrereleasePattern tag.data

/-- A release as the legacy script sees it. -/
structure LegacyRelease where
  version : String
  tag_name : String
  tarball : String
  prerelease : Bool
deriving DecidableEq

/-- An entry of the legacy script's update queue. -/
structure EnrichedEntry where
  module_name : String
  module_url : String
  repo_name : String
  module_version : String
  tarball : String
  module_file_url : String
deriving DecidableEq

/-- The head of the loop body of `enrich_modules` for one release: `some
true` means the `v <= rv` break, `some false` means proceed, `none` means
`InvalidVersion` was logged and the release is skipped. -/
def enrichGate (pepLe : String → String → Option Bool) (registered : Option String)
    (v : String) : Option Bool :=
  match registered with
  | none => some false
  | some rv =>
    match pepLe v rv with
    | none => none
    | some le => if le then some true else some false

/-- The queue entry built for one release. -/
def mkEnrichedEntry (moduleName moduleUrl : String) (r : LegacyRelease) : EnrichedEntry :=
  ⟨moduleName, moduleUrl, lastSplitComponent '/' moduleUrl, r.version, r.tarball,
    moduleUrl ++ "/blob/" ++ r.tag_name ++ "/MODULE.bazel"⟩

/-- The per-module release loop of `enrich_modules`, parameterised by the
`packaging.version` comparison `pepLe a b = parse(a) <= parse(b)` (`none`
models `InvalidVersion`, which the script logs and skips).  `registered` is
the currently registered version (`none` for a falsy value); on `some true`
the loop breaks, a prerelease whose tag lacks the suffix pattern is skipped,
and the loop also breaks once `max_releases` entries are collected. -/
def enrichReleasesAux (pepLe : String → String → Option Bool)
    (moduleName moduleUrl : String) (registered : Option String) (maxR : Nat) :
    List LegacyRelease → Nat → List EnrichedEntry
  | [], _ => []
  | r :: rs, count =>
    match enrichGate pepLe registered r.version with
    | some true => []
    | none => enrichReleasesAux pepLe moduleName moduleUrl registered maxR rs count
    | some false =>
      if r.prerelease && !tagHasPrereleaseSuffix r.tag_name then
        enrichReleasesAux pepLe moduleName moduleUrl registered maxR rs count
      else if count + 1 ≥ maxR then [mkEnrichedEntry moduleName moduleUrl r]
      else mkEnrichedEntry moduleName moduleUrl r ::
        enrichReleasesAux pepLe moduleName moduleUrl registered maxR rs (count + 1)

/-- The releases enqueued for one module by `enrich_modules`. -/
def enrich_module_releases (pepLe : String → String → Option Bool)
    (moduleName moduleUrl : String) (registered : Option String) (maxR : Nat)
    (releases : List LegacyRelease) : List EnrichedEntry :=
  enrichReleasesAux pepLe moduleName moduleUrl registered maxR releases 0

example :
    (plan_module_updates ⟨[]⟩
      ⟨fun _ => some ⟨"org/repo", mkVersion "2.0.0", "v2.0.0", false⟩,
        fun _ _ => some "module(version=\"2.0.0\", compatibility_level=2)"⟩
      [⟨"/modules/score_demo", "score_demo", "org/repo", [mkVersion "1.0.0"], true, false⟩]).map
        (fun p => (p.1.length, p.2.length)) = .ok (1, 0) := by decide

example :
    (plan_module_updates ⟨[]⟩
      ⟨fun _ => some ⟨"org/repo", mkVersion "2.0.0", "v2.0.0", false⟩, fun _ _ => none⟩
      [⟨"/modules/score_demo", "score_demo", "org/repo",
        [mkVersion "2.0.0", mkVersion "1.0.0"], true, false⟩]).map
        (fun p => (p.1.length, p.2.length)) = .ok (0, 0) := by decide

example :
    (plan_module_updates ⟨[]⟩
      ⟨fun _ => some ⟨"org/repo", mkVersion "2.0.0", "v2.0.0", false⟩, fun _ _ => none⟩
      [⟨"/modules/score_demo", "score_demo", "org/repo", [mkVersion "1.0.0"], true, false⟩]).map
        (fun p => (p.1.length, p.2.length)) = .ok (0, 1) := by decide

example :
    (plan_module_updates ⟨[]⟩
      ⟨fun _ => some ⟨"org/repo", mkVersion "ABC", "vABC", false⟩, fun _ _ => none⟩
      [⟨"/modules/score_demo", "score_demo", "org/repo", [mkVersion "1.0.0"], true, false⟩]).map
        (fun p => (p.1.length, p.2.length)) = .ok (0, 1) := by decide

example :
    (generate_files (fun _ => "sha256-test") (fun _ => "h") (fun _ _ => "d")
      ⟨⟨"/modules/score_demo", "score_demo", "org/repo", [], true, false⟩,
        ⟨"org/repo", mkVersion "1.0.0", "v1.0.0", false⟩,
        ⟨"module(version=\"1.0.0\", compatibility_level=1)", some 1, some (mkVersion "1.0.0")⟩⟩
      []).map (fun r => (r.moduleBazel, r.patchFiles.length, r.source.patches.isNone)) =
      .ok ("module(version=\"1.0.0\", compatibility_level=1)", 0, true) := by decide

example :
    (generate_files (fun _ => "sha256-test") (fun _ => "h") (fun _ _ => "d")
      ⟨⟨"/modules/score_demo", "score_demo", "org/repo", [], true, false⟩,
        ⟨"org/repo", mkVersion "2.0.0", "v2.0.0", false⟩,
        ⟨"module(version=\"1.0.0\", compatibility_level=1)", some 1, some (mkVersion "1.0.0")⟩⟩
      []).map (fun r => (r.moduleBazel, r.patchFiles.length, r.source.patches.isNone)) =
      .ok ("module(version=\"2.0.0\", compatibility_level=2)", 1, false) := by decide

example :
    (generate_files (fun _ => "sha256-test") (fun _ => "h") (fun _ _ => "d")
      ⟨⟨"/modules/score_demo", "score_demo", "org/repo", [], true, false⟩,
        ⟨"org/repo", mkVersion "ABC", "vABC", false⟩,
        ⟨"module(version=\"1.0.0\", compatibility_level=42)", some 42, some (mkVersion "1.0.0")⟩⟩
      []).map (fun r => r.moduleBazel) =
      .ok "module(version=\"ABC\", compatibility_level=42)" := by decide

example :
    add_version_to_metadata (mkVersion "1.0.11") ["1.0.9", "1.0.10"] =
      .ok ["1.0.11", "1.0.10", "1.0.9"] := by decide

example :
    mainRun (fun _ => "s") (fun _ => "h") (fun _ _ => "d") [] ⟨fun _ => none, fun _ _ => none⟩
      [⟨"demo_module", true, some (some ⟨some ["github:org/repo"], ["1.0.0"], true, false⟩)⟩] =
      ⟨0, [], ["modules/demo_module is not prefixed with score_"]⟩ := by decide

/-! ### Helper lemmas about version sorting and the duplicate check -/

theorem orderedInsertDesc_perm (v : Version) (l : List Version) :
    List.Perm (orderedInsertDesc v l) (v :: l) := by
  induction l with
  | nil => exact List.Perm.refl _
  | cons w ws ih =>
    unfold orderedInsertDesc
    split
    · exact List.Perm.refl _
    · exact (ih.cons w).trans (List.Perm.swap v w ws)

theorem sortVersionsDesc_perm (l : List Version) :
    List.Perm (sortVersionsDesc l) l := by
  induction l with
  | nil => exact List.Perm.refl _
  | cons v vs ih =>
    exact (orderedInsertDesc_perm v (sortVersionsDesc vs)).trans (ih.cons v)

theorem parse_versions_perm (raws : List String) :
    List.Perm (parse_versions raws) (raws.map mkVersion) :=
  sortVersionsDesc_perm (raws.map mkVersion)

/-- The duplicate-membership test of `_add_version_to_metadata` is raw-string
membership in the stored version strings. -/
theorem dup_check_iff {rel : Version} {old : List String} :
    ((parse_versions old).any fun v => vEq rel v) = true ↔ rel.raw ∈ old := by
  rw [List.any_eq_true]
  constructor
  · rintro ⟨v, hv, he⟩
    have hv2 : v ∈ old.map mkVersion := (parse_versions_perm old).mem_iff.mp hv
    rw [List.mem_map] at hv2
    obtain ⟨s, hs, rfl⟩ := hv2
    unfold vEq at he
    rw [beq_iff_eq] at he
    rw [he]
    exact hs
  · intro h
    refine ⟨mkVersion rel.raw, ?_, ?_⟩
    · exact (parse_versions_perm old).mem_iff.mpr (List.mem_map.mpr ⟨rel.raw, h, rfl⟩)
    · unfold vEq
      exact beq_iff_eq.mpr rfl

/-- Descending (weakly, under `Version.__lt__`) sortedness of a version list,
as an executable check. -/
def descSortedBool : List Version → Bool
  | [] => true
  | [_] => true
  | a :: b :: t => !vLt a b && descSortedBool (b :: t)

/-- Claim C2 (counterexample): appending release version `1.0.0` to persisted
versions `["2.0.0"]` yields `["1.0.0", "2.0.0"]`, which is not in descending
`Version` order (`1.0.0 < 2.0.0`), because `_add_version_to_metadata`
prepends the new version unconditionally. -/
theorem c2_lower_append_not_descending :
    add_version_to_metadata (mkVersion "1.0.0") ["2.0.0"] = .ok ["1.0.0", "2.0.0"] ∧
    descSortedBool ([mkVersion "1.0.0", mkVersion "2.0.0"]) = false ∧
    vLt (mkVersion "1.0.0") (mkVersion "2.0.0") = true := by decide

/-- Claim C2 (amended): when the release version is not already present,
`_add_version_to_metadata` persists the release version prepended to the old
versions sorted descending — a permutation of old plus new; the resulting
list is descending only when the new version is not below the previous
maximum, not in general. -/
theorem c2_add_version_shape (rel : Version) (old : List String)
    (hdup : rel.raw ∉ old) :
    add_version_to_metadata rel old = .ok (rel.raw :: (parse_versions old).map Version.raw) ∧
    List.Perm (rel.raw :: (parse_versions old).map Version.raw) (rel.raw :: old) := by
  constructor
  · unfold add_version_to_metadata
    rw [if_neg fun h => hdup (dup_check_iff.mp h)]
  · refine List.Perm.cons rel.raw ?_
    have h := (parse_versions_perm old).map Version.raw
    rw [List.map_map] at h
    have h2 : old.map (Version.raw ∘ mkVersion) = old := by
      rw [show Version.raw ∘ mkVersion = id from rfl, List.map_id]
    rw [h2] at h
    exact h

/-- Claim C2 (witness): the specification's own example — appending `1.0.11`
to `["1.0.9", "1.0.10"]` gives `["1.0.11", "1.0.10", "1.0.9"]`, descending. -/
theorem c2_add_version_shape_witness :
    ("1.0.11" ∉ ["1.0.9", "1.0.10"]) ∧
    add_version_to_metadata (mkVersion "1.0.11") ["1.0.9", "1.0.10"] =
      .ok ("1.0.11" :: (parse_versions ["1.0.9", "1.0.10"]).map Version.raw) ∧
    add_version_to_metadata (mkVersion "1.0.11") ["1.0.9", "1.0.10"] =
      .ok ["1.0.11", "1.0.10", "1.0.9"] ∧
    descSortedBool (["1.0.11", "1.0.10", "1.0.9"].map mkVersion) = true :=
  ⟨by decide, (c2_add_version_shape (mkVersion "1.0.11") ["1.0.9", "1.0.10"] (by decide)).1,
    by decide, by decide⟩

/-- Claim C8: when the task's release version is already present
(raw-string equality) in the persisted versions list, `generate_files` raises
`RuntimeError` from `_add_version_to_metadata`; the check precedes the seek
and truncate of the metadata file, so nothing is written for the task. -/
theorem c8_duplicate_version_fatal (hashUrl hashStr : String → String)
    (mkDiff : String → String → String) (info : ModuleUpdateInfo) (old : List String)
    (hdup : info.release.version.raw ∈ old) :
    generate_files hashUrl hashStr mkDiff info old = .error .runtimeError := by
  have h : add_version_to_metadata info.release.version old = .error .runtimeError := by
    unfold add_version_to_metadata
    rw [if_pos (dup_check_iff.mpr hdup)]
  unfold generate_files
  rw [h]

/-- Claim C8 (witness): re-appending `1.0.0` over metadata `["1.0.0"]` is
fatal. -/
theorem c8_duplicate_version_fatal_witness :
    ("1.0.0" ∈ ["1.0.0"]) ∧
    generate_files (fun _ => "sha256-test") (fun _ => "h") (fun _ _ => "d")
      ⟨⟨"modules/score_demo", "score_demo", "org/repo", [], true, false⟩,
        ⟨"org/repo", mkVersion "1.0.0", "v1.0.0", false⟩,
        ⟨"module(version=\"1.0.0\", compatibility_level=1)", some 1, some (mkVersion "1.0.0")⟩⟩
      ["1.0.0"] = .error .runtimeError :=
  ⟨by decide, c8_duplicate_version_fatal _ _ _ _ _ (by decide)⟩

/-- Claim C10: when the fetched declaration has no version attribute
(`ModuleFileContent.version` is `None`) and the release version is not a
duplicate, `generate_files` raises `AssertionError` at the patch-decision
step (the reflected `Version.__eq__` asserts `isinstance`), so neither a
patch nor MODULE.bazel nor source.json is produced. -/
theorem c10_missing_declared_version_asserts (hashUrl hashStr : String → String)
    (mkDiff : String → String → String) (info : ModuleUpdateInfo) (old : List String)
    (hver : info.mod_file.version = none)
    (hdup : info.release.version.raw ∉ old) :
    generate_files hashUrl hashStr mkDiff info old = .error .assertionError := by
  have h : add_version_to_metadata info.release.version old =
      .ok (info.release.version.raw :: (parse_versions old).map Version.raw) := by
    unfold add_version_to_metadata
    rw [if_neg fun h => hdup (dup_check_iff.mp h)]
  have h2 : create_patch_for_module_version_if_mismatch mkDiff info = .error .assertionError := by
    unfold create_patch_for_module_version_if_mismatch
    rw [hver]
  unfold generate_files
  rw [h, h2]

/-- Claim C10 (witness): a declaration without any version attribute reaches
the assertion. -/
theorem c10_missing_declared_version_asserts_witness :
    (⟨"module(compatibility_level=1)", some 1, none⟩ : ModuleFileContent).version = none ∧
    ("2.0.0" ∉ ["1.0.0"]) ∧
    generate_files (fun _ => "sha256-test") (fun _ => "h") (fun _ _ => "d")
      ⟨⟨"modules/score_demo", "score_demo", "org/repo", [], true, false⟩,
        ⟨"org/repo", mkVersion "2.0.0", "v2.0.0", false⟩,
        ⟨"module(compatibility_level=1)", some 1, none⟩⟩
      ["1.0.0"] = .error .assertionError :=
  ⟨by decide, by decide, c10_missing_declared_version_asserts _ _ _ _ _ (by decide) (by decide)⟩

theorem major_version_eq (m : ModuleFileContent) (dv : Version) (hv : m.version = some dv) :
    m.major_version = dv.semver.map SemVer.major := by
  unfold ModuleFileContent.major_version
  rw [hv]

/-- Claim C6: for a task whose release version is not already persisted,
`generate_files` produces no patch artifact and a source descriptor without a
`patches` field if and only if the declaration declares a version that
raw-string-equals the release version and declares a compatibility level
equal to the release version's semantic major (absent equals absent when the
release is not semantic). -/
theorem c6_no_patch_iff (hashUrl hashStr : String → String)
    (mkDiff : String → String → String) (info : ModuleUpdateInfo) (old : List String)
    (hdup : info.release.version.raw ∉ old) :
    (∃ r, generate_files hashUrl hashStr mkDiff info old = .ok r ∧
        r.patchFiles = [] ∧ r.source.patches = none) ↔
      (∃ dv, info.mod_file.version = some dv ∧ dv.raw = info.release.version.raw ∧
        info.mod_file.comp_level = info.release.version.semver.map SemVer.major) := by
  have hmeta : add_version_to_metadata info.release.version old =
      .ok (info.release.version.raw :: (parse_versions old).map Version.raw) := by
    unfold add_version_to_metadata
    rw [if_neg fun h => hdup (dup_check_iff.mp h)]
  cases hv : info.mod_file.version with
  | none =>
    have hcp : create_patch_for_module_version_if_mismatch mkDiff info =
        .error .assertionError := by
      unfold create_patch_for_module_version_if_mismatch
      rw [hv]
    constructor
    · rintro ⟨r, hr, _, _⟩
      unfold generate_files at hr
      rw [hmeta, hcp] at hr
      exact nomatch hr
    · rintro ⟨dv, hdv, _, _⟩
      exact nomatch hdv
  | some dv =>
    have hcp0 : create_patch_for_module_version_if_mismatch mkDiff info =
        create_patch_given_version mkDiff info dv := by
      unfold create_patch_for_module_version_if_mismatch
      rw [hv]
    by_cases hcond : (vEq dv info.release.version &&
        (info.mod_file.major_version == info.mod_file.comp_level)) = true
    · have hcp : create_patch_for_module_version_if_mismatch mkDiff info = .ok (none, []) := by
        rw [hcp0]
        unfold create_patch_given_version
        rw [if_pos hcond]
      have hgen : generate_files hashUrl hashStr mkDiff info old =
          .ok ⟨info.release.version.raw :: (parse_versions old).map Version.raw,
            write_files_module_bazel none info, [],
            generate_source_json hashUrl hashStr info []⟩ := by
        unfold generate_files
        rw [hmeta, hcp]
      constructor
      · intro _
        rw [Bool.and_eq_true] at hcond
        obtain ⟨h1, h2⟩ := hcond
        unfold vEq at h1
        rw [beq_iff_eq] at h1
        refine ⟨dv, rfl, h1, ?_⟩
        rw [beq_iff_eq] at h2
        rw [← h2, major_version_eq info.mod_file dv hv]
        unfold Version.semver
        rw [h1]
      · intro _
        exact ⟨_, hgen, rfl, rfl⟩
    · have hcp : create_patch_for_module_version_if_mismatch mkDiff info =
          .ok (some (stamped_module_content info),
            [(patchFileName, mkDiff info.mod_file.content (stamped_module_content info))]) := by
        rw [hcp0]
        unfold create_patch_given_version
        rw [if_neg hcond]
      have hgen : generate_files hashUrl hashStr mkDiff info old =
          .ok ⟨info.release.version.raw :: (parse_versions old).map Version.raw,
            write_files_module_bazel (some (stamped_module_content info)) info,
            [(patchFileName, mkDiff info.mod_file.content (stamped_module_content info))],
            generate_source_json hashUrl hashStr info
              [(patchFileName, mkDiff info.mod_file.content (stamped_module_content info))]⟩ := by
        unfold generate_files
        rw [hmeta, hcp]
      constructor
      · rintro ⟨r, hr, hpf, _⟩
        rw [hgen] at hr
        injection hr with hr
        rw [← hr] at hpf
        exact nomatch hpf
      · rintro ⟨dv2, hdv2, hraw2, hcl2⟩
        injection hdv2 with hdv2
        subst hdv2
        refine absurd ?_ hcond
        rw [Bool.and_eq_true]
        refine ⟨?_, ?_⟩
        · unfold vEq
          rw [beq_iff_eq]
          exact hraw2
        · rw [beq_iff_eq, major_version_eq info.mod_file dv hv]
          unfold Version.semver
          rw [hraw2]
          exact hcl2.symm

/-- Claim C6 (witness): matching declared version `1.0.0` with level `1` for
release `1.0.0` — no patch and no `patches` field. -/
theorem c6_no_patch_iff_witness :
    ("1.0.0" ∉ ([] : List String)) ∧
    ((∃ r, generate_files (fun _ => "sha256-test") (fun _ => "h") (fun _ _ => "d")
        ⟨⟨"modules/score_demo", "score_demo", "org/repo", [], true, false⟩,
          ⟨"org/repo", mkVersion "1.0.0", "v1.0.0", false⟩,
          ⟨"module(version=\"1.0.0\", compatibility_level=1)", some 1, some (mkVersion "1.0.0")⟩⟩
        [] = .ok r ∧ r.patchFiles = [] ∧ r.source.patches = none) ↔
      (∃ dv, (⟨"module(version=\"1.0.0\", compatibility_level=1)", some 1,
          some (mkVersion "1.0.0")⟩ : ModuleFileContent).version = some dv ∧
        dv.raw = (mkVersion "1.0.0").raw ∧
        (⟨"module(version=\"1.0.0\", compatibility_level=1)", some 1,
          some (mkVersion "1.0.0")⟩ : ModuleFileContent).comp_level =
          (mkVersion "1.0.0").semver.map SemVer.major)) :=
  ⟨by decide,
    c6_no_patch_iff (fun _ => "sha256-test") (fun _ => "h") (fun _ _ => "d")
      ⟨⟨"modules/score_demo", "score_demo", "org/repo", [], true, false⟩,
        ⟨"org/repo", mkVersion "1.0.0", "v1.0.0", false⟩,
        ⟨"module(version=\"1.0.0\", compatibility_level=1)", some 1, some (mkVersion "1.0.0")⟩⟩
      [] (by decide)⟩

theorem stamped_of_nonsemver (info : ModuleUpdateInfo)
    (h : info.release.version.semver = none) :
    stamped_module_content info =
      String.mk (subVersionFirst info.release.version.raw.data info.mod_file.content.data) := by
  unfold stamped_module_content
  rw [h]

theorem stamped_of_semver (info : ModuleUpdateInfo) (sv : SemVer)
    (h : info.release.version.semver = some sv) :
    stamped_module_content info =
      String.mk (subCompLevelFirst sv.major
        (subVersionFirst info.release.version.raw.data info.mod_file.content.data)) := by
  unfold stamped_module_content
  rw [h]

theorem write_files_some_ne (p : String) (info : ModuleUpdateInfo) (h : p ≠ "") :
    write_files_module_bazel (some p) info = p := by
  simp only [write_files_module_bazel]
  rw [if_neg fun hc => h (beq_iff_eq.mp hc)]

/-- Claim C7: when correction is needed, the text written as the version's
MODULE.bazel is the stamped content — the original with the first quoted
version attribute value replaced by the release version string
(`subVersionFirst`) and, exactly when the release version parses as
semantic, the first compatibility_level integer replaced by its major number
(`subCompLevelFirst`); for a non-semantic release version the
compatibility-level substitution is skipped.  The patch artifact is the
unified diff of original versus stamped content. -/
theorem c7_correction_content (hashUrl hashStr : String → String)
    (mkDiff : String → String → String) (info : ModuleUpdateInfo) (old : List String)
    (dv : Version)
    (hv : info.mod_file.version = some dv)
    (hdup : info.release.version.raw ∉ old)
    (hmm : ¬(dv.raw = info.release.version.raw ∧
      info.mod_file.comp_level = info.release.version.semver.map SemVer.major)) :
    ∃ r, generate_files hashUrl hashStr mkDiff info old = .ok r ∧
      (stamped_module_content info ≠ "" → r.moduleBazel = stamped_module_content info) ∧
      r.patchFiles = [(patchFileName, mkDiff info.mod_file.content (stamped_module_content info))] ∧
      (info.release.version.semver = none →
        stamped_module_content info =
          String.mk (subVersionFirst info.release.version.raw.data info.mod_file.content.data)) ∧
      (∀ sv, info.release.version.semver = some sv →
        stamped_module_content info =
          String.mk (subCompLevelFirst sv.major
            (subVersionFirst info.release.version.raw.data info.mod_file.content.data))) := by
  have hcond : ¬(vEq dv info.release.version &&
      (info.mod_file.major_version == info.mod_file.comp_level)) = true := by
    intro hc
    rw [Bool.and_eq_true] at hc
    obtain ⟨h1, h2⟩ := hc
    unfold vEq at h1
    rw [beq_iff_eq] at h1
    rw [beq_iff_eq] at h2
    refine hmm ⟨h1, ?_⟩
    rw [← h2, major_version_eq info.mod_file dv hv]
    unfold Version.semver
    rw [h1]
  have hmeta : add_version_to_metadata info.release.version old =
      .ok (info.release.version.raw :: (parse_versions old).map Version.raw) := by
    unfold add_version_to_metadata
    rw [if_neg fun h => hdup (dup_check_iff.mp h)]
  have hcp0 : create_patch_for_module_version_if_mismatch mkDiff info =
      create_patch_given_version mkDiff info dv := by
    unfold create_patch_for_module_version_if_mismatch
    rw [hv]
  have hcp : create_patch_for_module_version_if_mismatch mkDiff info =
      .ok (some (stamped_module_content info),
        [(patchFileName, mkDiff info.mod_file.content (stamped_module_content info))]) := by
    rw [hcp0]
    unfold create_patch_given_version
    rw [if_neg hcond]
  have hgen : generate_files hashUrl hashStr mkDiff info old =
      .ok ⟨info.release.version.raw :: (parse_versions old).map Version.raw,
        write_files_module_bazel (some (stamped_module_content info)) info,
        [(patchFileName, mkDiff info.mod_file.content (stamped_module_content info))],
        generate_source_json hashUrl hashStr info
          [(patchFileName, mkDiff info.mod_file.content (stamped_module_content info))]⟩ := by
    unfold generate_files
    rw [hmeta, hcp]
  refine ⟨_, hgen, ?_, rfl, ?_, ?_⟩
  · intro hne
    exact write_files_some_ne _ info hne
  · intro hns
    exact stamped_of_nonsemver info hns
  · intro sv hs
    exact stamped_of_semver info sv hs

/-- Claim C7 (witness): non-semantic release `"ABC"` over declared version
`1.0.0` with level `42` — the written MODULE.bazel carries
`version="ABC"` while `compatibility_level=42` stays untouched. -/
theorem c7_correction_content_witness :
    ((⟨"module(version=\"1.0.0\", compatibility_level=42)", some 42,
        some (mkVersion "1.0.0")⟩ : ModuleFileContent).version = some (mkVersion "1.0.0")) ∧
    ("ABC" ∉ ([] : List String)) ∧
    ¬((mkVersion "1.0.0").raw = (mkVersion "ABC").raw ∧
      (some 42 : Option Nat) = (mkVersion "ABC").semver.map SemVer.major) ∧
    (∃ r, generate_files (fun _ => "sha256-test") (fun _ => "h") (fun _ _ => "d")
      ⟨⟨"modules/score_demo", "score_demo", "org/repo", [], true, false⟩,
        ⟨"org/repo", mkVersion "ABC", "vABC", false⟩,
        ⟨"module(version=\"1.0.0\", compatibility_level=42)", some 42,
          some (mkVersion "1.0.0")⟩⟩
      [] = .ok r ∧ r.moduleBazel = "module(version=\"ABC\", compatibility_level=42)") := by
  refine ⟨by decide, by decide, by decide, ?_⟩
  obtain ⟨r, hr, hw, hpf, hns, hss⟩ :=
    c7_correction_content (fun _ => "sha256-test") (fun _ => "h") (fun _ _ => "d")
      ⟨⟨"modules/score_demo", "score_demo", "org/repo", [], true, false⟩,
        ⟨"org/repo", mkVersion "ABC", "vABC", false⟩,
        ⟨"module(version=\"1.0.0\", compatibility_level=42)", some 42,
          some (mkVersion "1.0.0")⟩⟩
      [] (mkVersion "1.0.0") rfl (by decide) (by decide)
  refine ⟨r, hr, ?_⟩
  rw [hw (by decide)]
  decide

/-- Claim C1 (counterexample): with known versions
`{1.5.5, 2.0.1-alpha.5}` (descending, head `2.0.1-alpha.5`) the backwards
candidate `2.0.0` — strictly below the known `2.0.1-alpha.5` under `Version`
ordering — yields one task from `plan_module_updates`, not zero: the planner
compares only for raw-string inequality with the head version. -/
theorem c1_backwards_candidate_is_planned :
    vLt (mkVersion "2.0.0") (mkVersion "2.0.1-alpha.5") = true ∧
    (plan_module_updates ⟨[]⟩
      ⟨fun _ => some ⟨"org/repo", mkVersion "2.0.0", "v2.0.0", false⟩,
        fun _ _ => some "module(version=\"2.0.0\", compatibility_level=2)"⟩
      [⟨"modules/score_demo", "score_demo", "org/repo",
        [mkVersion "2.0.1-alpha.5", mkVersion "1.5.5"], true, false⟩]).map
        (fun p => p.1.map fun t => t.release.version.raw) = .ok ["2.0.0"] := by decide

/-- Claim C1 (amended): `plan_module_updates` rejects a candidate exactly by
raw-string equality with the module's head (latest) version: whenever the
collaborator's release raw-equals the head version, the module contributes no
task and no warning. -/
theorem c1_plan_skips_head_repeat (args : Args) (gh : GH) (m : BazelModuleInfo)
    (v0 : Version) (rest : List Version)
    (hv : m.versions = v0 :: rest)
    (hrel : ∀ r, gh.get_latest_release m.org_and_repo = some r → r.version.raw = v0.raw) :
    plan_module_updates args gh [m] = .ok ([], []) := by
  have hstep : planStep args gh m = .ok (none, []) := by
    unfold planStep
    by_cases hper : (!m.periodic_pull && args.modules.isEmpty) = true
    · rw [if_pos hper]
    · rw [if_neg hper]
      cases hg : gh.get_latest_release m.org_and_repo with
      | none => rfl
      | some rel =>
        rw [hv]
        have hraw : (v0.raw == rel.version.raw) = true := by
          rw [beq_iff_eq]
          exact (hrel rel hg).symm
        show (if (v0.raw == rel.version.raw) = true then Except.ok (none, []) else _) =
          Except.ok (none, [])
        rw [if_pos hraw]
  unfold plan_module_updates planAux
  rw [hstep]
  rfl

/-- Claim C1 (witness): a module whose head version raw-equals the fetched
release is skipped with zero tasks. -/
theorem c1_plan_skips_head_repeat_witness :
    plan_module_updates ⟨[]⟩
      ⟨fun _ => some ⟨"org/repo", mkVersion "2.0.1-alpha.5", "v2.0.1-alpha.5", true⟩,
        fun _ _ => some "module()"⟩
      [⟨"modules/score_demo", "score_demo", "org/repo",
        [mkVersion "2.0.1-alpha.5", mkVersion "1.5.5"], true, false⟩] = .ok ([], []) :=
  c1_plan_skips_head_repeat ⟨[]⟩
    ⟨fun _ => some ⟨"org/repo", mkVersion "2.0.1-alpha.5", "v2.0.1-alpha.5", true⟩,
      fun _ _ => some "module()"⟩
    ⟨"modules/score_demo", "score_demo", "org/repo",
      [mkVersion "2.0.1-alpha.5", mkVersion "1.5.5"], true, false⟩
    (mkVersion "2.0.1-alpha.5") [mkVersion "1.5.5"] rfl
    (fun r hr => by cases hr; rfl)

/-- Claim C9 (counterexample): a module with an empty versions list makes
`plan_module_updates` raise `ValueError` (from `latest_version`) as soon as
the collaborator reports a release, instead of returning a task list. -/
theorem c9_empty_versions_raises :
    plan_module_updates ⟨[]⟩
      ⟨fun _ => some ⟨"org/repo", mkVersion "1.0.0", "v1.0.0", false⟩, fun _ _ => none⟩
      [⟨"modules/score_demo", "score_demo", "org/repo", [], true, false⟩] =
      .error .valueError := by decide

/-- Claim C9 (amended): for every argument vector, every collaborator
behavior and every module list in which each module has a non-empty versions
list, `plan_module_updates` terminates normally with an `ok` task list —
every skip only logs and never raises. -/
theorem c9_plan_total_when_versions_nonempty (args : Args) (gh : GH)
    (modules : List BazelModuleInfo) (h : ∀ m ∈ modules, m.versions ≠ []) :
    ∃ out, plan_module_updates args gh modules = .ok out := by
  induction modules with
  | nil => exact ⟨([], []), rfl⟩
  | cons m ms ih =>
    obtain ⟨out, hout⟩ := ih fun x hx => h x (List.mem_cons_of_mem m hx)
    obtain ⟨outs, outw⟩ := out
    have hm : m.versions ≠ [] := h m (List.mem_cons_self m ms)
    have hne : ∀ e : PyErr, planStep args gh m ≠ .error e := by
      intro e hcontra
      unfold planStep at hcontra
      split at hcontra
      · exact nomatch hcontra
      · split at hcontra
        · exact nomatch hcontra
        · split at hcontra
          · rename_i heq
            exact hm heq
          · split at hcontra
            · exact nomatch hcontra
            · split at hcontra
              · exact nomatch hcontra
              · split at hcontra
                · exact nomatch hcontra
                · exact nomatch hcontra
    cases hps : planStep args gh m with
    | error e => exact (hne e hps).elim
    | ok s =>
      obtain ⟨t, w⟩ := s
      refine ⟨(t.toList ++ outs, w ++ outw), ?_⟩
      unfold plan_module_updates planAux
      unfold plan_module_updates at hout
      rw [hps, hout]

/-- Claim C9 (witness): a planner run over modules with non-empty version
lists returns normally. -/
theorem c9_plan_total_when_versions_nonempty_witness :
    (∀ m ∈ [(⟨"modules/score_demo", "score_demo", "org/repo",
        [mkVersion "1.0.0"], true, false⟩ : BazelModuleInfo)], m.versions ≠ []) ∧
    ∃ out, plan_module_updates ⟨[]⟩
      ⟨fun _ => some ⟨"org/repo", mkVersion "2.0.0", "v2.0.0", false⟩, fun _ _ => none⟩
      [⟨"modules/score_demo", "score_demo", "org/repo", [mkVersion "1.0.0"], true, false⟩] =
      .ok out :=
  ⟨by decide,
    c9_plan_total_when_versions_nonempty ⟨[]⟩
      ⟨fun _ => some ⟨"org/repo", mkVersion "2.0.0", "v2.0.0", false⟩, fun _ _ => none⟩
      [⟨"modules/score_demo", "score_demo", "org/repo", [mkVersion "1.0.0"], true, false⟩]
      (by decide)⟩

/-- Claim C4 (counterexample): `Version.__lt__` is not transitive on mixed
collections.  `1.0.9 < 1.0.10` semantically, `1.0.10 < 1.0.5x` by the raw
lexical fallback (`1.0.5x` has no semantic parse), yet `1.0.9 < 1.0.5x`
fails lexically. -/
theorem c4_mixed_not_transitive :
    vLt (mkVersion "1.0.9") (mkVersion "1.0.10") = true ∧
    vLt (mkVersion "1.0.10") (mkVersion "1.0.5x") = true ∧
    vLt (mkVersion "1.0.9") (mkVersion "1.0.5x") = false := by decide

/-- Claim C4 (amended): `Version.__lt__` is transitive whenever all three
operands have a semantic parse, or at least two of the three do not (so that
every pairwise comparison uses the same rule - full semantic precedence or
raw lexical order); only a triple in which exactly one operand fails to parse
can mix the two rules. -/
theorem c4_lt_trans_uniform (a b c : Version)
    (h : (a.semver.isSome ∧ b.semver.isSome ∧ c.semver.isSome) ∨
      (a.semver = none ∧ b.semver = none) ∨ (a.semver = none ∧ c.semver = none) ∨
      (b.semver = none ∧ c.semver = none))
    (h1 : vLt a b = true) (h2 : vLt b c = true) : vLt a c = true := by
  unfold vLt at h1 h2 ⊢
  cases hsa : a.semver with
  | none =>
    cases hsb : b.semver with
    | none =>
      cases hsc : c.semver with
      | none =>
        rw [hsa, hsb] at h1
        rw [hsb, hsc] at h2
        exact rawLt_trans h1 h2
      | some z =>
        rw [hsa, hsb] at h1
        rw [hsb, hsc] at h2
        exact rawLt_trans h1 h2
    | some y =>
      cases hsc : c.semver with
      | none =>
        rw [hsa, hsb] at h1
        rw [hsb, hsc] at h2
        exact rawLt_trans h1 h2
      | some z =>
        exfalso
        rcases h with ⟨ha, hb2, hc2⟩ | ⟨ha2, hb2⟩ | ⟨ha2, hc2⟩ | ⟨hb2, hc2⟩ <;> simp_all
  | some x =>
    cases hsb : b.semver with
    | none =>
      cases hsc : c.semver with
      | none =>
        rw [hsa, hsb] at h1
        rw [hsb, hsc] at h2
        exact rawLt_trans h1 h2
      | some z =>
        exfalso
        rcases h with ⟨ha, hb2, hc2⟩ | ⟨ha2, hb2⟩ | ⟨ha2, hc2⟩ | ⟨hb2, hc2⟩ <;> simp_all
    | some y =>
      cases hsc : c.semver with
      | none =>
        exfalso
        rcases h with ⟨ha, hb2, hc2⟩ | ⟨ha2, hb2⟩ | ⟨ha2, hc2⟩ | ⟨hb2, hc2⟩ <;> simp_all
      | some z =>
        rw [hsa, hsb] at h1
        rw [hsb, hsc] at h2
        have h1x : (svCmp x y == Ordering.lt) = true := h1
        have h2x : (svCmp y z == Ordering.lt) = true := h2
        have e1 : svCmp x y = .lt := ordBeqLt_iff.mp h1x
        have e2 : svCmp y z = .lt := ordBeqLt_iff.mp h2x
        show (svCmp x z == Ordering.lt) = true
        exact ordBeqLt_iff.mpr (svCmp_lt_trans e1 e2)

/-- Claim C4 (witness): the amended transitivity at the specification's own
all-semver chain `1.0.0 < 1.0.1 < 1.1.0`. -/
theorem c4_lt_trans_uniform_witness :
    ((mkVersion "1.0.0").semver.isSome ∧ (mkVersion "1.0.1").semver.isSome ∧
      (mkVersion "1.1.0").semver.isSome) ∧
    vLt (mkVersion "1.0.0") (mkVersion "1.0.1") = true ∧
    vLt (mkVersion "1.0.1") (mkVersion "1.1.0") = true ∧
    vLt (mkVersion "1.0.0") (mkVersion "1.1.0") = true :=
  ⟨by decide, by decide, by decide,
    c4_lt_trans_uniform (mkVersion "1.0.0") (mkVersion "1.0.1") (mkVersion "1.1.0")
      (Or.inl (by decide)) (by decide) (by decide)⟩

/-- Claim C5 (counterexample): `plan_module_updates` never consults the
prerelease flag.  A prerelease-flagged release tagged plainly `1.2.3` (no
dash-alphabetic suffix) still yields an update task. -/
theorem c5_planner_accepts_suffixless_prerelease :
    tagHasPrereleaseSuffix "1.2.3" = false ∧
    (plan_module_updates ⟨[]⟩
      ⟨fun _ => some ⟨"org/repo", mkVersion "1.2.3", "1.2.3", true⟩,
        fun _ _ => some "module(version=\"1.2.3\", compatibility_level=1)"⟩
      [⟨"modules/score_demo", "score_demo", "org/repo", [mkVersion "1.0.0"], true, false⟩]).map
        (fun p => p.1.map fun t => (t.release.prerelease, t.release.tag_name)) =
      .ok [(true, "1.2.3")] := by decide

/-- Claim C5 (amended): the prerelease-suffix rejection is enforced by
`enrich_modules` of the legacy `check_and_update_modules.py` script, not by
`plan_module_updates`: every entry the legacy loop enqueues originates from
an input release, and whenever that release is prerelease-flagged its tag
contains the `\d+\.\d+\.\d+-[A-Za-z]+` core-dash-alphabetic pattern. -/
theorem c5_enrich_rejects_suffixless_prereleases
    (pepLe : String → String → Option Bool) (moduleName moduleUrl : String)
    (registered : Option String) (maxR : Nat) (releases : List LegacyRelease)
    (e : EnrichedEntry)
    (he : e ∈ enrich_module_releases pepLe moduleName moduleUrl registered maxR releases) :
    ∃ r ∈ releases, e.module_version = r.version ∧ e.tarball = r.tarball ∧
      (r.prerelease = true → tagHasPrereleaseSuffix r.tag_name = true) := by
  unfold enrich_module_releases at he
  suffices haux : ∀ (rel : List LegacyRelease) (count : Nat),
      e ∈ enrichReleasesAux pepLe moduleName moduleUrl registered maxR rel count →
      ∃ r ∈ rel, e.module_version = r.version ∧ e.tarball = r.tarball ∧
        (r.prerelease = true → tagHasPrereleaseSuffix r.tag_name = true) by
    exact haux releases 0 he
  intro rel
  induction rel with
  | nil =>
    intro count hmem
    exact absurd hmem (List.not_mem_nil e)
  | cons r rs ih =>
    intro count hmem
    unfold enrichReleasesAux at hmem
    split at hmem
    · exact absurd hmem (List.not_mem_nil e)
    · obtain ⟨r2, hr2, hprop⟩ := ih count hmem
      exact ⟨r2, List.mem_cons_of_mem r hr2, hprop⟩
    · split at hmem
      · obtain ⟨r2, hr2, hprop⟩ := ih count hmem
        exact ⟨r2, List.mem_cons_of_mem r hr2, hprop⟩
      · rename_i hguard
        have hpre : r.prerelease = true → tagHasPrereleaseSuffix r.tag_name = true := by
          intro hp
          by_contra hs
          rw [Bool.not_eq_true] at hs
          exact hguard (by rw [hp, hs]; rfl)
        split at hmem
        · rw [List.mem_singleton] at hmem
          subst hmem
          exact ⟨r, List.mem_cons_self r rs, rfl, rfl, hpre⟩
        · rcases List.mem_cons.mp hmem with hmem | hmem
          · subst hmem
            exact ⟨r, List.mem_cons_self r rs, rfl, rfl, hpre⟩
          · obtain ⟨r2, hr2, hprop⟩ := ih (count + 1) hmem
            exact ⟨r2, List.mem_cons_of_mem r hr2, hprop⟩

/-- Claim C5 (witness): a non-prerelease release is enqueued by the legacy
loop, and the guard property holds for it. -/
theorem c5_enrich_rejects_suffixless_prereleases_witness :
    ((⟨"score_demo", "https://github.com/org/repo", "repo", "2.0.0", "t",
        "https://github.com/org/repo/blob/v2.0.0/MODULE.bazel"⟩ : EnrichedEntry) ∈
      enrich_module_releases (fun _ _ => none) "score_demo" "https://github.com/org/repo"
        none 5 [⟨"2.0.0", "v2.0.0", "t", false⟩]) ∧
    ∃ r ∈ [(⟨"2.0.0", "v2.0.0", "t", false⟩ : LegacyRelease)],
      ("2.0.0" : String) = r.version ∧ ("t" : String) = r.tarball ∧
      (r.prerelease = true → tagHasPrereleaseSuffix r.tag_name = true) :=
  ⟨by decide,
    c5_enrich_rejects_suffixless_prereleases (fun _ _ => none) "score_demo"
      "https://github.com/org/repo" none 5 [⟨"2.0.0", "v2.0.0", "t", false⟩]
      ⟨"score_demo", "https://github.com/org/repo", "repo", "2.0.0", "t",
        "https://github.com/org/repo/blob/v2.0.0/MODULE.bazel"⟩ (by decide)⟩

/-- Claim C3 (failing run): a registry whose only module directory violates
the `score_` naming convention records a warning on the `bazel_wrapper`
logger, yet `main` — which consults only its own logger's `warnings` list —
exits 0.  Warnings recorded by other components do not make the exit code
non-zero. -/
theorem c3_bazel_warning_exits_zero :
    (mainRun (fun _ => "sha256-test") (fun _ => "h") (fun _ _ => "d") []
      ⟨fun _ => none, fun _ _ => none⟩
      [⟨"demo_module", true, some (some ⟨some ["github:org/repo"], ["1.0.0"], true, false⟩)⟩]).exitCode
      = 0 ∧
    (mainRun (fun _ => "sha256-test") (fun _ => "h") (fun _ _ => "d") []
      ⟨fun _ => none, fun _ _ => none⟩
      [⟨"demo_module", true, some (some ⟨some ["github:org/repo"], ["1.0.0"], true, false⟩)⟩]).bazelWarnings
      = ["modules/demo_module is not prefixed with score_"] := by decide
